import Mathlib

/-!
Shallow embedding of `src/main.rs` (ben05allen/file-processor).

The program is a four-state line parser (`FileParser`) driven by
`process_line` and `finish`, flushing accumulated block content to
pluggable handlers (`BlockHandler` trait; reference implementation
`PrintHandler`).

Modelling conventions:
* Rust `&mut self` methods returning `Result<(), E>` become functions
  returning the updated `FileParser` together with the trace of handler
  invocations (`HEvent`) made during the call, and the `Except E Unit`
  outcome.  On an early `?` return the updated-so-far parser is what the
  caller observes, exactly as with `&mut self` in Rust.
* A handler (`Box<dyn BlockHandler>`) is a function `String → Except E Unit`;
  an `HEvent` records each actual call of a handler's `handle` with its
  content argument.
* Rust `str::trim` is modelled by `trimStr` (strip leading and trailing
  whitespace characters from the character list).
* `String::push('\n')` followed by `push_str(line)` is modelled with
  string append; `String::is_empty` is the test against `""`.
-/

/-- States of the parser, from `enum ParserState` in the source. -/
inductive ParserState where
  | PreBlock
  | CentralBlock
  | PostBlock
  | Finished
deriving DecidableEq, Repr

/-- Model of Rust `str::trim`: drop leading and trailing whitespace. -/
def trimStr (s : String) : String :=
  ⟨((s.data.dropWhile Char.isWhitespace).reverse.dropWhile Char.isWhitespace).reverse⟩

/-- A record of one handler invocation: which handler was called and with
which content string. -/
inductive HEvent where
  | pre (content : String)
  | central (content : String)
  | post (content : String)
deriving DecidableEq, Repr

instance exceptDecEq {ε α : Type} [DecidableEq ε] [DecidableEq α] :
    DecidableEq (Except ε α) := fun a b =>
  match a, b with
  | .ok x, .ok y =>
    if h : x = y then isTrue (by rw [h]) else isFalse (by intro hh; cases hh; exact h rfl)
  | .ok _, .error _ => isFalse (by intro hh; cases hh)
  | .error _, .ok _ => isFalse (by intro hh; cases hh)
  | .error x, .error y =>
    if h : x = y then isTrue (by rw [h]) else isFalse (by intro hh; cases hh; exact h rfl)

/-- The handler wiring of `struct FileProcessor`: a mandatory pre-handler and
optional central and post handlers, each a fallible consumer of a content
string (the `handle` method of the `BlockHandler` trait). -/
structure FileProcessor (E : Type) where
  pre_handler : String → Except E Unit
  central_handler : Option (String → Except E Unit)
  post_handler : Option (String → Except E Unit)

/-- `struct FileParser`: current state, accumulated block content, and the
two sentinel strings fixed at construction. -/
structure FileParser where
  state : ParserState
  block_content : String
  pre_sentinel : String
  post_sentinel : String
deriving DecidableEq, Repr

/-- `FileParser::new`. -/
def FileParser.new (pre_sentinel post_sentinel : String) : FileParser :=
  { state := ParserState.PreBlock
    block_content := ""
    pre_sentinel := pre_sentinel
    post_sentinel := post_sentinel }

/-- The buffer-append step shared by the non-sentinel branches of
`process_line`: push `'\n'` first when the buffer is non-empty, then push
the line. -/
def appendLine (buf line : String) : String :=
  (if buf = "" then buf else buf ++ "\n") ++ line

/-- `FileParser::process_line`.  Returns the updated parser, the handler
invocations made, and the `Result` outcome. -/
def FileParser.process_line (p : FileParser) (line : String) (proc : FileProcessor E) :
    FileParser × List HEvent × Except E Unit :=
  match p.state with
  | ParserState.PreBlock =>
    if trimStr line = p.pre_sentinel then
      match proc.pre_handler p.block_content with
      | .ok _ =>
        ({ p with block_content := "", state := ParserState.CentralBlock },
         [HEvent.pre p.block_content], Except.ok ())
      | .error e => (p, [HEvent.pre p.block_content], Except.error e)
    else if trimStr line = p.post_sentinel then
      match proc.pre_handler p.block_content with
      | .ok _ =>
        ({ p with block_content := "", state := ParserState.PostBlock },
         [HEvent.pre p.block_content], Except.ok ())
      | .error e => (p, [HEvent.pre p.block_content], Except.error e)
    else
      ({ p with block_content := appendLine p.block_content line }, [], Except.ok ())
  | ParserState.CentralBlock =>
    if trimStr line = p.post_sentinel then
      match proc.central_handler with
      | some handler =>
        match handler p.block_content with
        | .ok _ =>
          ({ p with block_content := "", state := ParserState.PostBlock },
           [HEvent.central p.block_content], Except.ok ())
        | .error e => (p, [HEvent.central p.block_content], Except.error e)
      | none =>
        ({ p with block_content := "", state := ParserState.PostBlock }, [], Except.ok ())
    else
      ({ p with block_content := appendLine p.block_content line }, [], Except.ok ())
  | ParserState.PostBlock =>
    ({ p with block_content := appendLine p.block_content line }, [], Except.ok ())
  | ParserState.Finished => (p, [], Except.ok ())

/-- `FileParser::finish`.  Flushes the buffer to the handler matching the
current state; the assignment `self.state = Finished` runs only when no
handler call returned early with an error. -/
def FileParser.finish (p : FileParser) (proc : FileProcessor E) :
    FileParser × List HEvent × Except E Unit :=
  match p.state with
  | ParserState.PreBlock =>
    match proc.pre_handler p.block_content with
    | .ok _ =>
      ({ p with state := ParserState.Finished }, [HEvent.pre p.block_content], Except.ok ())
    | .error e => (p, [HEvent.pre p.block_content], Except.error e)
  | ParserState.CentralBlock =>
    match proc.central_handler with
    | some handler =>
      match handler p.block_content with
      | .ok _ =>
        ({ p with state := ParserState.Finished },
         [HEvent.central p.block_content], Except.ok ())
      | .error e => (p, [HEvent.central p.block_content], Except.error e)
    | none => ({ p with state := ParserState.Finished }, [], Except.ok ())
  | ParserState.PostBlock =>
    match proc.post_handler with
    | some handler =>
      match handler p.block_content with
      | .ok _ =>
        ({ p with state := ParserState.Finished },
         [HEvent.post p.block_content], Except.ok ())
      | .error e => (p, [HEvent.post p.block_content], Except.error e)
    | none => ({ p with state := ParserState.Finished }, [], Except.ok ())
  | ParserState.Finished =>
    ({ p with state := ParserState.Finished }, [], Except.ok ())

/-- The per-line loop of `process_file`: feed lines in order, stopping at the
first error (`?` on `process_line`). -/
def runLines (proc : FileProcessor E) : FileParser → List String → FileParser × List HEvent × Except E Unit
  | p, [] => (p, [], Except.ok ())
  | p, line :: rest =>
    match p.process_line line proc with
    | (p1, ev1, .ok _) =>
      match runLines proc p1 rest with
      | (p2, ev2, r) => (p2, ev1 ++ ev2, r)
    | (p1, ev1, .error e) => (p1, ev1, Except.error e)

/-- The whole of `process_file` after the file is read: a fresh parser,
every line in order, then `finish`. -/
def run (proc : FileProcessor E) (pre_sentinel post_sentinel : String) (lines : List String) :
    FileParser × List HEvent × Except E Unit :=
  match runLines proc (FileParser.new pre_sentinel post_sentinel) lines with
  | (p1, ev1, .ok _) =>
    match p1.finish proc with
    | (p2, ev2, r) => (p2, ev1 ++ ev2, r)
  | (p1, ev1, .error e) => (p1, ev1, Except.error e)

/-- A processor whose three handlers are all present and always succeed
(the shape of both the production `FileProcessor::new` wiring and the test
wiring, abstracting from the print side effects). -/
def okProc (E : Type) : FileProcessor E :=
  { pre_handler := fun _ => Except.ok ()
    central_handler := some fun _ => Except.ok ()
    post_handler := some fun _ => Except.ok () }

/-- The canonical always-succeeding processor at a decidable error type. -/
def okProcU : FileProcessor Unit := okProc Unit

/-- A processor whose pre-handler always fails and which has no central or
post handler; used to exercise the failure paths. -/
def failProcU : FileProcessor Unit :=
  { pre_handler := fun _ => Except.error ()
    central_handler := none
    post_handler := none }

/-- The handler a recorded invocation refers to, applied to its recorded
content. -/
def applyHandler (proc : FileProcessor E) : HEvent → Except E Unit
  | .pre c => proc.pre_handler c
  | .central c =>
    match proc.central_handler with
    | some h => h c
    | none => Except.ok ()
  | .post c =>
    match proc.post_handler with
    | some h => h c
    | none => Except.ok ()

/-- `struct PrintHandler`. -/
structure PrintHandler where
  label : String

/-- `PrintHandler::new`. -/
def PrintHandler.new (label : String) : PrintHandler := ⟨label⟩

/-- `PrintHandler::handle`: the list of lines printed to standard output and
the returned `Result` (always `Ok`). -/
def PrintHandler.handle (h : PrintHandler) (content : String) :
    List String × Except Unit Unit :=
  (if content = "" then []
   else ["=== Start: " ++ h.label ++ " ===", content, "===  End: " ++ h.label ++ "  ==="],
   Except.ok ())

/-- Lines joined by a single newline separator, as the spec describes block
content ("the original lines rejoined by a newline with no trailing
separator"). -/
def joinLines : List String → String
  | [] => ""
  | [line] => line
  | line :: rest => line ++ "\n" ++ joinLines rest

/-- The content the parser's buffer accumulates from a list of appended
lines, starting empty. -/
def buildContent (lines : List String) : String := lines.foldl appendLine ""

/-- Rank of a state in the order PreBlock < CentralBlock < PostBlock <
Finished. -/
def stateRank : ParserState → Nat
  | ParserState.PreBlock => 0
  | ParserState.CentralBlock => 1
  | ParserState.PostBlock => 2
  | ParserState.Finished => 3

/-- Leading empty lines of a line list (they leave the empty buffer
unchanged when appended). -/
def dropLeadingEmpty (lines : List String) : List String :=
  lines.dropWhile fun l => decide (l = "")

theorem empty_append_str (s : String) : "" ++ s = s := by
  cases s
  rfl

theorem appendLine_empty (line : String) : appendLine "" line = line := by
  simp only [appendLine, if_pos rfl]
  exact empty_append_str line

theorem appendLine_ne_empty (buf line : String) (h : buf ≠ "") :
    appendLine buf line = buf ++ "\n" ++ line := by
  simp only [appendLine, if_neg h]

theorem append_newline_ne (s t : String) : s ++ "\n" ++ t ≠ "" := by
  intro h
  have h2 : (s ++ "\n" ++ t).length = 0 := by rw [h]; rfl
  simp [String.length_append] at h2
  exact absurd h2.1.2 (by decide)

theorem joinLines_glue (x l : String) (rest : List String) :
    joinLines ((x ++ "\n" ++ l) :: rest) = x ++ "\n" ++ joinLines (l :: rest) := by
  cases rest with
  | nil => rfl
  | cons r rs => simp [joinLines, String.append_assoc]

theorem foldl_appendLine_of_ne (lines : List String) :
    ∀ buf : String, buf ≠ "" →
    List.foldl appendLine buf lines = joinLines (buf :: lines) := by
  induction lines with
  | nil => intro buf _; rfl
  | cons l rest ih =>
    intro buf hbuf
    have hstep : appendLine buf l = buf ++ "\n" ++ l := appendLine_ne_empty buf l hbuf
    calc List.foldl appendLine buf (l :: rest)
        = List.foldl appendLine (appendLine buf l) rest := rfl
      _ = joinLines ((buf ++ "\n" ++ l) :: rest) := by
          rw [hstep]; exact ih _ (append_newline_ne buf l)
      _ = buf ++ "\n" ++ joinLines (l :: rest) := joinLines_glue buf l rest

theorem buildContent_eq_joinLines (lines : List String) :
    buildContent lines = joinLines (dropLeadingEmpty lines) := by
  induction lines with
  | nil => rfl
  | cons l rest ih =>
    by_cases h : l = ""
    · subst h
      have hfold : buildContent ("" :: rest) = buildContent rest := by
        simp only [buildContent, List.foldl]
        rw [appendLine_empty]
      rw [hfold, ih]
      simp [dropLeadingEmpty, List.dropWhile]
    · have hfold : buildContent (l :: rest) = List.foldl appendLine l rest := by
        simp only [buildContent, List.foldl]
        rw [appendLine_empty]
      rw [hfold, foldl_appendLine_of_ne rest l h]
      simp [dropLeadingEmpty, List.dropWhile, h]

theorem runLines_preBlock_no_sentinel {E : Type} (lines : List String) :
    ∀ (buf pre post : String) (proc : FileProcessor E),
    (∀ l ∈ lines, trimStr l ≠ pre ∧ trimStr l ≠ post) →
    runLines proc ⟨ParserState.PreBlock, buf, pre, post⟩ lines =
      (⟨ParserState.PreBlock, List.foldl appendLine buf lines, pre, post⟩, [], Except.ok ()) := by
  induction lines with
  | nil => intro buf pre post proc _; rfl
  | cons l rest ih =>
    intro buf pre post proc h
    have h1 := (h l (List.mem_cons_self l rest)).1
    have h2 := (h l (List.mem_cons_self l rest)).2
    have hrest : ∀ x ∈ rest, trimStr x ≠ pre ∧ trimStr x ≠ post :=
      fun x hx => h x (List.mem_cons_of_mem l hx)
    simp only [runLines, FileParser.process_line, if_neg h1, if_neg h2]
    rw [ih _ pre post proc hrest]
    rfl

theorem runLines_postBlock {E : Type} (lines : List String) :
    ∀ (buf pre post : String) (proc : FileProcessor E),
    runLines proc ⟨ParserState.PostBlock, buf, pre, post⟩ lines =
      (⟨ParserState.PostBlock, List.foldl appendLine buf lines, pre, post⟩, [], Except.ok ()) := by
  induction lines with
  | nil => intro buf pre post proc; rfl
  | cons l rest ih =>
    intro buf pre post proc
    simp only [runLines, FileParser.process_line]
    rw [ih _ pre post proc]
    rfl


theorem okProc_pre (E : Type) (c : String) : (okProc E).pre_handler c = Except.ok () := rfl

theorem okProc_central (E : Type) :
    (okProc E).central_handler = some fun _ => Except.ok () := rfl

theorem okProc_post (E : Type) :
    (okProc E).post_handler = some fun _ => Except.ok () := rfl

theorem runLines_post_first {E : Type} (pres : List String) :
    ∀ (buf pre post postLine : String) (rest : List String),
    (∀ l ∈ pres, trimStr l ≠ pre ∧ trimStr l ≠ post) →
    trimStr postLine = post → trimStr postLine ≠ pre →
    runLines (okProc E) ⟨ParserState.PreBlock, buf, pre, post⟩ (pres ++ postLine :: rest) =
      (⟨ParserState.PostBlock, List.foldl appendLine "" rest, pre, post⟩,
       [HEvent.pre (List.foldl appendLine buf pres)], Except.ok ()) := by
  induction pres with
  | nil =>
    intro buf pre post postLine rest _ hq hnp
    simp only [List.nil_append, runLines, FileParser.process_line, if_neg hnp, if_pos hq,
      okProc_pre]
    rw [runLines_postBlock rest "" pre post (okProc E)]
    rfl
  | cons l pres ih =>
    intro buf pre post postLine rest h hq hnp
    have h1 := (h l (List.mem_cons_self l pres)).1
    have h2 := (h l (List.mem_cons_self l pres)).2
    have hrest : ∀ x ∈ pres, trimStr x ≠ pre ∧ trimStr x ≠ post :=
      fun x hx => h x (List.mem_cons_of_mem l hx)
    simp only [List.cons_append, runLines, FileParser.process_line, if_neg h1, if_neg h2,
      List.append_eq]
    rw [ih _ pre post postLine rest hrest hq hnp]
    rfl

/-- Claim C1: for the input line sequence x, *pre*, y, *post*, z with
pre-sentinel *pre* and post-sentinel *post*, processing every line in order
and then finishing invokes the pre-handler exactly once with content x, the
central-handler exactly once with content y and the post-handler exactly
once with content z, and no handler receives a sentinel line. -/
theorem C1_scenario_all_blocks :
    run okProcU "*pre*" "*post*" ["x", "*pre*", "y", "*post*", "z"] =
      (⟨ParserState.Finished, "z", "*pre*", "*post*"⟩,
       [HEvent.pre "x", HEvent.central "y", HEvent.post "z"], Except.ok ()) := by
  decide

/-- Claim C2, amended: when no line trim-matches either sentinel, the whole
run makes exactly one handler invocation, of the pre-handler, with content
equal to the input lines joined by a newline after dropping any leading
empty lines (the code appends an empty line to an empty buffer without a
separator, so leading empty lines leave no trace). -/
theorem C2_no_sentinel_one_flush {E : Type} (proc : FileProcessor E)
    (pre post : String) (lines : List String)
    (h : ∀ l ∈ lines, trimStr l ≠ pre ∧ trimStr l ≠ post) :
    (run proc pre post lines).2.1 = [HEvent.pre (joinLines (dropLeadingEmpty lines))] := by
  unfold run
  rw [show (FileParser.new pre post) = (⟨ParserState.PreBlock, "", pre, post⟩ : FileParser)
      from rfl,
    runLines_preBlock_no_sentinel lines "" pre post proc h]
  cases hph : proc.pre_handler (List.foldl appendLine "" lines) with
  | ok u =>
    simp only [FileParser.finish, hph]
    show [HEvent.pre (buildContent lines)] = _
    rw [buildContent_eq_joinLines]
  | error e =>
    simp only [FileParser.finish, hph]
    show [HEvent.pre (buildContent lines)] = _
    rw [buildContent_eq_joinLines]

/-- Witness for C2 at the spec's Scenario 2: lines a, b with sentinels that
never appear give a single pre-handler invocation with content "a\nb". -/
theorem C2_no_sentinel_one_flush_witness :
    (∀ l ∈ (["a", "b"] : List String), trimStr l ≠ "*pre*" ∧ trimStr l ≠ "*post*") ∧
    (run okProcU "*pre*" "*post*" ["a", "b"]).2.1 =
      [HEvent.pre (joinLines (dropLeadingEmpty ["a", "b"]))] :=
  ⟨by decide, C2_no_sentinel_one_flush okProcU "*pre*" "*post*" ["a", "b"] (by decide)⟩

/-- Counterexample to C2 as stated: the input lines "" and "a" contain no
sentinel line, yet the flushed content is "a", not the join "\na" of all
input lines. -/
theorem C2_counterexample_leading_empty :
    (∀ l ∈ (["", "a"] : List String), trimStr l ≠ "*pre*" ∧ trimStr l ≠ "*post*") ∧
    (run okProcU "*pre*" "*post*" ["", "a"]).2.1 ≠ [HEvent.pre (joinLines ["", "a"])] := by
  decide

/-- Claim C3: when a line trim-matching the post-sentinel occurs before any
line trim-matching the pre-sentinel, the run makes exactly two handler
invocations, first of the pre-handler with the content accumulated so far
and then of the post-handler with the content accumulated afterwards; the
central-handler is never invoked. -/
theorem C3_post_before_pre {E : Type} (pres : List String) (postLine : String)
    (rest : List String) (pre post : String)
    (h : ∀ l ∈ pres, trimStr l ≠ pre ∧ trimStr l ≠ post)
    (hq : trimStr postLine = post) (hnp : trimStr postLine ≠ pre) :
    run (okProc E) pre post (pres ++ postLine :: rest) =
      (⟨ParserState.Finished, buildContent rest, pre, post⟩,
       [HEvent.pre (buildContent pres), HEvent.post (buildContent rest)], Except.ok ()) := by
  unfold run
  rw [show (FileParser.new pre post) = (⟨ParserState.PreBlock, "", pre, post⟩ : FileParser)
      from rfl,
    runLines_post_first pres "" pre post postLine rest h hq hnp]
  simp only [FileParser.finish, okProc_post]
  rfl

/-- Witness for C3 at the spec's Scenario 3: lines *post*, q with sentinels
*pre* and *post* give a pre-handler invocation with "" and a post-handler
invocation with "q". -/
theorem C3_post_before_pre_witness :
    run okProcU "*pre*" "*post*" ["*post*", "q"] =
      (⟨ParserState.Finished, "q", "*pre*", "*post*"⟩,
       [HEvent.pre "", HEvent.post "q"], Except.ok ()) := by
  exact C3_post_before_pre ([] : List String) "*post*" ["q"] "*pre*" "*post*"
    (by decide) (by decide) (by decide)

/-- Claim C4, amended: finish flushes the buffered content to the handler
matching the current state (pre-handler always in PreBlock, central-handler
if present in CentralBlock, post-handler if present in PostBlock, no handler
in Finished); when the flush succeeds, the state is Finished on return, but
when the handler call fails the failure propagates and the parser, its state
included, is unchanged. -/
theorem C4_finish_flush_and_state (E : Type) (p : FileParser) (proc : FileProcessor E) :
    ((p.finish proc).2.1 =
      match p.state with
      | ParserState.PreBlock => [HEvent.pre p.block_content]
      | ParserState.CentralBlock =>
        match proc.central_handler with
        | some _ => [HEvent.central p.block_content]
        | none => []
      | ParserState.PostBlock =>
        match proc.post_handler with
        | some _ => [HEvent.post p.block_content]
        | none => []
      | ParserState.Finished => []) ∧
    ((p.finish proc).2.2 = Except.ok () →
      (p.finish proc).1 = { p with state := ParserState.Finished }) ∧
    (∀ e, (p.finish proc).2.2 = Except.error e → (p.finish proc).1 = p) := by
  obtain ⟨st, buf, pre, post⟩ := p
  cases st with
  | PreBlock =>
    cases hph : proc.pre_handler buf with
    | ok u => simp [FileParser.finish, hph]
    | error e => simp [FileParser.finish, hph]
  | CentralBlock =>
    cases hch : proc.central_handler with
    | none => simp [FileParser.finish, hch]
    | some hh =>
      cases hhb : hh buf with
      | ok u => simp [FileParser.finish, hch, hhb]
      | error e => simp [FileParser.finish, hch, hhb]
  | PostBlock =>
    cases hch : proc.post_handler with
    | none => simp [FileParser.finish, hch]
    | some hh =>
      cases hhb : hh buf with
      | ok u => simp [FileParser.finish, hch, hhb]
      | error e => simp [FileParser.finish, hch, hhb]
  | Finished => simp [FileParser.finish]

/-- Witness for C4 at a concrete parser and processor: a fresh parser
finished against the all-succeeding processor flushes its empty buffer to
the pre-handler and ends in the Finished state. -/
theorem C4_finish_flush_and_state_witness :
    ((FileParser.new "a" "b").finish okProcU).1 =
      { FileParser.new "a" "b" with state := ParserState.Finished } :=
  (C4_finish_flush_and_state Unit (FileParser.new "a" "b") okProcU).2.1 rfl

/-- Counterexample to C4 as stated: with a pre-handler that fails, finish on
a fresh parser returns with the failure and the state is still PreBlock,
not Finished. -/
theorem C4_counterexample_failing_flush :
    ((FileParser.new "a" "b").finish failProcU).2.2 = Except.error () ∧
    ((FileParser.new "a" "b").finish failProcU).1.state ≠ ParserState.Finished := by
  decide

/-- Claim C5: when the handler invoked by process_line fails, process_line
returns that failure, the parser (buffer and state) is unchanged, and the
single recorded invocation is the one whose handler application is the
failure. -/
theorem C5_handler_failure_no_mutation (E : Type) (p : FileParser) (line : String)
    (proc : FileProcessor E) (e : E)
    (herr : (p.process_line line proc).2.2 = Except.error e) :
    (p.process_line line proc).1 = p ∧
    ∃ ev, (p.process_line line proc).2.1 = [ev] ∧ applyHandler proc ev = Except.error e := by
  obtain ⟨st, buf, pre, post⟩ := p
  cases st with
  | PreBlock =>
    by_cases h1 : trimStr line = pre
    · cases hph : proc.pre_handler buf with
      | ok u =>
        simp only [FileParser.process_line] at herr
        rw [if_pos h1, hph] at herr
        simp at herr
      | error e2 =>
        simp only [FileParser.process_line] at herr ⊢
        rw [if_pos h1, hph] at herr ⊢
        have he : e2 = e := by simpa using herr
        subst he
        exact ⟨rfl, HEvent.pre buf, rfl, hph⟩
    · by_cases h2 : trimStr line = post
      · cases hph : proc.pre_handler buf with
        | ok u =>
          simp only [FileParser.process_line] at herr
          rw [if_neg h1, if_pos h2, hph] at herr
          simp at herr
        | error e2 =>
          simp only [FileParser.process_line] at herr ⊢
          rw [if_neg h1, if_pos h2, hph] at herr ⊢
          have he : e2 = e := by simpa using herr
          subst he
          exact ⟨rfl, HEvent.pre buf, rfl, hph⟩
      · simp only [FileParser.process_line] at herr
        rw [if_neg h1, if_neg h2] at herr
        simp at herr
  | CentralBlock =>
    by_cases h2 : trimStr line = post
    · cases hch : proc.central_handler with
      | none =>
        simp only [FileParser.process_line] at herr
        rw [if_pos h2, hch] at herr
        simp at herr
      | some hh =>
        cases hhb : hh buf with
        | ok u =>
          simp only [FileParser.process_line] at herr
          rw [if_pos h2, hch] at herr
          dsimp only at herr
          rw [hhb] at herr
          simp at herr
        | error e2 =>
          simp only [FileParser.process_line] at herr ⊢
          rw [if_pos h2, hch] at herr ⊢
          dsimp only at herr ⊢
          rw [hhb] at herr ⊢
          have he : e2 = e := by simpa using herr
          subst he
          exact ⟨rfl, HEvent.central buf, rfl, by rw [applyHandler, hch]; exact hhb⟩
    · simp only [FileParser.process_line] at herr
      rw [if_neg h2] at herr
      simp at herr
  | PostBlock => simp [FileParser.process_line] at herr
  | Finished => simp [FileParser.process_line] at herr

/-- Witness for C5: a fresh parser with sentinel "a", the line "a" and a
failing pre-handler: the failure is returned and the parser is unchanged. -/
theorem C5_handler_failure_no_mutation_witness :
    ((FileParser.new "a" "b").process_line "a" failProcU).2.2 = Except.error () ∧
    ((FileParser.new "a" "b").process_line "a" failProcU).1 = FileParser.new "a" "b" ∧
    ∃ ev, ((FileParser.new "a" "b").process_line "a" failProcU).2.1 = [ev] ∧
      applyHandler failProcU ev = Except.error () :=
  ⟨by decide,
   C5_handler_failure_no_mutation Unit (FileParser.new "a" "b") "a" failProcU () (by decide)⟩

/-- Claim C6: with all handlers present and succeeding, a line triggers a
sentinel transition in process_line exactly when the line with surrounding
whitespace removed equals the sentinel string; any other line — in
particular one that merely contains a sentinel as a substring — is appended
to the buffer as ordinary content. -/
theorem C6_trim_equality_not_substring (E : Type) (buf pre post line : String) :
    ((((⟨ParserState.PreBlock, buf, pre, post⟩ : FileParser).process_line line
        (okProc E)).1.state ≠ ParserState.PreBlock) ↔
      (trimStr line = pre ∨ trimStr line = post)) ∧
    (trimStr line ≠ pre → trimStr line ≠ post →
      (⟨ParserState.PreBlock, buf, pre, post⟩ : FileParser).process_line line (okProc E) =
        (⟨ParserState.PreBlock, appendLine buf line, pre, post⟩, [], Except.ok ())) ∧
    ((((⟨ParserState.CentralBlock, buf, pre, post⟩ : FileParser).process_line line
        (okProc E)).1.state ≠ ParserState.CentralBlock) ↔ trimStr line = post) ∧
    (trimStr line ≠ post →
      (⟨ParserState.CentralBlock, buf, pre, post⟩ : FileParser).process_line line (okProc E) =
        (⟨ParserState.CentralBlock, appendLine buf line, pre, post⟩, [], Except.ok ())) := by
  refine ⟨?_, ?_, ?_, ?_⟩
  · by_cases h1 : trimStr line = pre
    · simp only [FileParser.process_line]
      rw [if_pos h1, okProc_pre]
      simp [h1]
    · by_cases h2 : trimStr line = post
      · simp only [FileParser.process_line]
        rw [if_neg h1, if_pos h2, okProc_pre]
        simp [h2]
      · simp only [FileParser.process_line]
        rw [if_neg h1, if_neg h2]
        simp [h1, h2]
  · intro h1 h2
    simp only [FileParser.process_line]
    rw [if_neg h1, if_neg h2]
  · by_cases h2 : trimStr line = post
    · simp only [FileParser.process_line]
      rw [if_pos h2, okProc_central]
      simp [h2]
    · simp only [FileParser.process_line]
      rw [if_neg h2]
      simp [h2]
  · intro h2
    simp only [FileParser.process_line]
    rw [if_neg h2]

/-- Witness for C6: the line ab*pre*cd contains the pre-sentinel *pre* as a
substring but does not trim-match it, so it is appended as ordinary
content. -/
theorem C6_trim_equality_not_substring_witness :
    trimStr "ab*pre*cd" ≠ "*pre*" ∧
    (⟨ParserState.PreBlock, "", "*pre*", "*post*"⟩ : FileParser).process_line "ab*pre*cd"
        (okProc Unit) =
      (⟨ParserState.PreBlock, appendLine "" "ab*pre*cd", "*pre*", "*post*"⟩, [],
       Except.ok ()) :=
  ⟨by decide,
   (C6_trim_equality_not_substring Unit "" "*pre*" "*post*" "ab*pre*cd").2.1
     (by decide) (by decide)⟩

/-- Claim C7, amended: appending to an empty buffer adds the line as-is and
appending to a non-empty buffer first pushes exactly one newline, so the
buffer accumulated from a sequence of non-sentinel lines, starting empty,
is those lines joined by a single newline after dropping leading empty
lines (with no leading or trailing newline added); in particular the lines
a, b serialize to exactly "a\nb". -/
theorem C7_block_join (E : Type) :
    (∀ line, appendLine "" line = line) ∧
    (∀ buf line, buf ≠ "" → appendLine buf line = buf ++ "\n" ++ line) ∧
    (∀ lines, buildContent lines = joinLines (dropLeadingEmpty lines)) ∧
    (∀ (proc : FileProcessor E) (lines : List String) (pre post : String),
      (∀ l ∈ lines, trimStr l ≠ pre ∧ trimStr l ≠ post) →
      (runLines proc (FileParser.new pre post) lines).1.block_content = buildContent lines) ∧
    buildContent ["a", "b"] = "a\nb" := by
  refine ⟨appendLine_empty, appendLine_ne_empty, buildContent_eq_joinLines, ?_, by decide⟩
  intro proc lines pre post h
  rw [show (FileParser.new pre post) = (⟨ParserState.PreBlock, "", pre, post⟩ : FileParser)
      from rfl,
    runLines_preBlock_no_sentinel lines "" pre post proc h]
  rfl

/-- Witness for C7: a non-empty buffer takes exactly one newline separator,
and running the parser over the lines a, b accumulates their join. -/
theorem C7_block_join_witness :
    appendLine "x" "y" = "x" ++ "\n" ++ "y" ∧
    (runLines (okProc Unit) (FileParser.new "*pre*" "*post*") ["a", "b"]).1.block_content =
      buildContent ["a", "b"] :=
  ⟨(C7_block_join Unit).2.1 "x" "y" (by decide),
   (C7_block_join Unit).2.2.2.1 (okProc Unit) ["a", "b"] "*pre*" "*post*" (by decide)⟩

/-- Counterexample to C7 as stated: appending the non-sentinel lines "" and
"a" to an empty buffer yields "a", not the join "\na" of the two lines. -/
theorem C7_counterexample_leading_empty :
    (∀ l ∈ (["", "a"] : List String), trimStr l ≠ "*pre*" ∧ trimStr l ≠ "*post*") ∧
    (runLines okProcU (FileParser.new "*pre*" "*post*") ["", "a"]).1.block_content ≠
      joinLines ["", "a"] := by
  decide

/-- Claim C8: PrintHandler.handle always returns success; empty content
(zero-length) emits nothing, and non-empty content emits exactly the three
lines: the opening banner, the raw content, and the closing banner with two
spaces before End and two spaces after the label. -/
theorem C8_print_handler_format (label content : String) :
    ((PrintHandler.new label).handle content).2 = Except.ok () ∧
    (content = "" → ((PrintHandler.new label).handle content).1 = []) ∧
    (content ≠ "" → ((PrintHandler.new label).handle content).1 =
      ["=== Start: " ++ label ++ " ===", content, "===  End: " ++ label ++ "  ==="]) := by
  refine ⟨rfl, ?_, ?_⟩
  · intro h
    simp [PrintHandler.handle, PrintHandler.new, h]
  · intro h
    simp [PrintHandler.handle, PrintHandler.new, h]

/-- Witness for C8 at label L: content "hi" emits the three banner lines and
content "" emits nothing. -/
theorem C8_print_handler_format_witness :
    ((PrintHandler.new "L").handle "hi").1 =
      ["=== Start: L ===", "hi", "===  End: L  ==="] ∧
    ((PrintHandler.new "L").handle "").1 = [] :=
  ⟨(C8_print_handler_format "L" "hi").2.2 (by decide),
   (C8_print_handler_format "L" "").2.1 rfl⟩

/-- Claim C9: under the order PreBlock < CentralBlock < PostBlock <
Finished, both process_line and finish leave the state at or above its
previous rank, and from Finished both calls are no-ops that leave the state
Finished. -/
theorem C9_state_monotone (E : Type) (p : FileParser) (line : String)
    (proc : FileProcessor E) :
    stateRank p.state ≤ stateRank ((p.process_line line proc).1.state) ∧
    stateRank p.state ≤ stateRank ((p.finish proc).1.state) ∧
    (p.state = ParserState.Finished →
      p.process_line line proc = (p, [], Except.ok ()) ∧
      p.finish proc = (p, [], Except.ok ())) := by
  obtain ⟨st, buf, pre, post⟩ := p
  refine ⟨?_, ?_, ?_⟩
  · cases st with
    | PreBlock => exact Nat.zero_le _
    | CentralBlock =>
      by_cases h2 : trimStr line = post
      · cases hch : proc.central_handler with
        | none =>
          simp only [FileParser.process_line]
          rw [if_pos h2, hch]
          dsimp only
          decide
        | some hh =>
          cases hhb : hh buf with
          | ok u =>
            simp only [FileParser.process_line]
            rw [if_pos h2, hch]
            dsimp only
            rw [hhb]
            dsimp only
            decide
          | error e =>
            simp only [FileParser.process_line]
            rw [if_pos h2, hch]
            dsimp only
            rw [hhb]
      · simp only [FileParser.process_line]
        rw [if_neg h2]
    | PostBlock =>
      simp only [FileParser.process_line]
      decide
    | Finished =>
      simp only [FileParser.process_line]
      decide
  · cases st with
    | PreBlock => exact Nat.zero_le _
    | CentralBlock =>
      cases hch : proc.central_handler with
      | none =>
        simp only [FileParser.finish]
        rw [hch]
        dsimp only
        decide
      | some hh =>
        cases hhb : hh buf with
        | ok u =>
          simp only [FileParser.finish]
          rw [hch]
          dsimp only
          rw [hhb]
          dsimp only
          decide
        | error e =>
          simp only [FileParser.finish]
          rw [hch]
          dsimp only
          rw [hhb]
    | PostBlock =>
      cases hch : proc.post_handler with
      | none =>
        simp only [FileParser.finish]
        rw [hch]
        dsimp only
        decide
      | some hh =>
        cases hhb : hh buf with
        | ok u =>
          simp only [FileParser.finish]
          rw [hch]
          dsimp only
          rw [hhb]
          dsimp only
          decide
        | error e =>
          simp only [FileParser.finish]
          rw [hch]
          dsimp only
          rw [hhb]
    | Finished =>
      simp only [FileParser.finish]
      decide
  · intro h
    cases h
    exact ⟨rfl, rfl⟩

/-- Witness for C9 at a parser already in the Finished state: both calls
leave it unchanged with no handler invocation. -/
theorem C9_state_monotone_witness :
    (⟨ParserState.Finished, "b", "p", "q"⟩ : FileParser).process_line "l" okProcU =
      (⟨ParserState.Finished, "b", "p", "q"⟩, [], Except.ok ()) ∧
    (⟨ParserState.Finished, "b", "p", "q"⟩ : FileParser).finish okProcU =
      (⟨ParserState.Finished, "b", "p", "q"⟩, [], Except.ok ()) :=
  (C9_state_monotone Unit ⟨ParserState.Finished, "b", "p", "q"⟩ "l" okProcU).2.2 rfl

/-- Claim C10: when the two sentinels are the equal string s, a line
trim-matching s while in PreBlock takes the pre-sentinel branch: the buffer
is flushed to the pre-handler and the state becomes CentralBlock, never
PostBlock, because the pre-sentinel comparison comes first. -/
theorem C10_equal_sentinels_pre_first (E : Type) (buf s line : String)
    (proc : FileProcessor E)
    (hline : trimStr line = s)
    (hok : proc.pre_handler buf = Except.ok ()) :
    (⟨ParserState.PreBlock, buf, s, s⟩ : FileParser).process_line line proc =
      (⟨ParserState.CentralBlock, "", s, s⟩, [HEvent.pre buf], Except.ok ()) := by
  simp only [FileParser.process_line]
  rw [if_pos hline, hok]

/-- Witness for C10: sentinels both equal to X, the line " X " trims to X
and moves a PreBlock parser to CentralBlock, flushing its buffer to the
pre-handler. -/
theorem C10_equal_sentinels_pre_first_witness :
    (⟨ParserState.PreBlock, "b", "X", "X"⟩ : FileParser).process_line " X " okProcU =
      (⟨ParserState.CentralBlock, "", "X", "X"⟩, [HEvent.pre "b"], Except.ok ()) :=
  C10_equal_sentinels_pre_first Unit "b" "X" " X " okProcU (by decide) rfl
